import Mathlib

/-
Verification of the fancyiter library (a fluent, chainable, lazy iterator
wrapper).  The repository contains two variant implementations of the
`FancyIter` class:

  * `src/fancyiter/iterator.py`  — embedded below in namespace `IteratorPy`;
  * `src/fancyiter/_iter.py`     — embedded below in namespace `IterPy`
    (this is the variant whose behaviour the repository's own test suite
    `tests/test_misc.py` asserts: it has `insert`, `pairs`, default
    predicates for `any`/`count`, tuple-valued windows, and
    `windows(0)` raising `ValueError`).

Python iterables are modelled as Lean lists (finite traversals), Python
exceptions as an error type threaded through `Except`, and the Python value
`None` either as `Option.none` (for homogeneous element domains) or as the
`PyVal.none` constructor of a small Python value universe.
-/

namespace Fancyiter

/-- Python exception kinds raised by the library and by the builtins it
invokes (`TypeError`, `ValueError`, `AttributeError`, and the library's own
`ItemNotFoundError`). -/
inductive Err where
  | typeError
  | valueError
  | attributeError
  | itemNotFound
deriving DecidableEq, Repr

/-- A small universe of Python values, enough to express the behaviours the
claims are about: `None`, booleans, integers, strings, tuples/lists of
values, and `noneEq` — an object of a user-defined class whose `__eq__`
returns `True` when compared with `None` (but which is not the `None`
object itself). -/
inductive PyVal where
  | none
  | bool (b : Bool)
  | int (n : Int)
  | str (s : String)
  | tuple (xs : List PyVal)
  | noneEq
deriving Repr

mutual

/-- Decidable structural equality on `PyVal` (written by hand because the
`tuple` constructor nests `List PyVal`). -/
def PyVal.decEq : (a b : PyVal) → Decidable (a = b)
  | .none, .none => .isTrue rfl
  | .noneEq, .noneEq => .isTrue rfl
  | .bool a, .bool b =>
      if h : a = b then .isTrue (by rw [h]) else .isFalse (by simp [h])
  | .int a, .int b =>
      if h : a = b then .isTrue (by rw [h]) else .isFalse (by simp [h])
  | .str a, .str b =>
      if h : a = b then .isTrue (by rw [h]) else .isFalse (by simp [h])
  | .tuple xs, .tuple ys =>
      match PyVal.decEqList xs ys with
      | .isTrue h => .isTrue (by rw [h])
      | .isFalse h => .isFalse (by simp [h])
  | .none, .noneEq | .none, .bool _ | .none, .int _ | .none, .str _
  | .none, .tuple _ | .noneEq, .none | .noneEq, .bool _ | .noneEq, .int _
  | .noneEq, .str _ | .noneEq, .tuple _ | .bool _, .none | .bool _, .noneEq
  | .bool _, .int _ | .bool _, .str _ | .bool _, .tuple _ | .int _, .none
  | .int _, .noneEq | .int _, .bool _ | .int _, .str _ | .int _, .tuple _
  | .str _, .none | .str _, .noneEq | .str _, .bool _ | .str _, .int _
  | .str _, .tuple _ | .tuple _, .none | .tuple _, .noneEq
  | .tuple _, .bool _ | .tuple _, .int _ | .tuple _, .str _ =>
      .isFalse (by simp)

/-- Decidable equality on lists of `PyVal`. -/
def PyVal.decEqList : (xs ys : List PyVal) → Decidable (xs = ys)
  | [], [] => .isTrue rfl
  | [], _ :: _ => .isFalse (by simp)
  | _ :: _, [] => .isFalse (by simp)
  | x :: xs, y :: ys =>
      match PyVal.decEq x y, PyVal.decEqList xs ys with
      | .isTrue h1, .isTrue h2 => .isTrue (by rw [h1, h2])
      | .isFalse h1, _ => .isFalse (by simp [h1])
      | _, .isFalse h2 => .isFalse (by simp [h2])

end

instance : DecidableEq PyVal := PyVal.decEq

/-- Python value equality `==` on `PyVal`: structural on the built-in
constructors, with the one user-defined override: `noneEq == None` and
`None == noneEq` are `True`.  (Python's numeric `bool`/`int` cross-type
equality is irrelevant to the claims and not modelled.) -/
def pyEq : PyVal → PyVal → Bool
  | .none, .none => true
  | .none, .noneEq => true
  | .noneEq, .none => true
  | .noneEq, .noneEq => true
  | .bool a, .bool b => a == b
  | .int a, .int b => a == b
  | .str a, .str b => a == b
  | .tuple a, .tuple b => pyEqList a b
  | _, _ => false
where
  /-- elementwise `==` on Python lists/tuples. -/
  pyEqList : List PyVal → List PyVal → Bool
  | [], [] => true
  | x :: xs, y :: ys => pyEq x y && pyEqList xs ys
  | _, _ => false

/-- Python identity test `v is None`: true exactly for the `None` object
itself (`noneEq` merely compares equal to `None`, it is not `None`). -/
def is_none : PyVal → Bool
  | .none => true
  | _ => false

/-- Python truthiness `bool(v)`. -/
def pyTruthy : PyVal → Bool
  | .none => false
  | .bool b => b
  | .int n => n != 0
  | .str s => s.length != 0
  | .tuple xs => xs.length != 0
  | .noneEq => true

/-- `input_validation.require_non_negative_integer`: raises `ValueError`
when `n < 0` (the is-an-integer `TypeError` branch is carried by the `Int`
type of the embedding). -/
def require_non_negative_integer (n : Int) : Except Err Unit :=
  if n < 0 then .error .valueError else .ok ()

/-- `input_validation.require_positive_integer`: raises `ValueError` when
`n ≤ 0`. -/
def require_positive_integer (n : Int) : Except Err Unit :=
  if n ≤ 0 then .error .valueError else .ok ()

/-- A wrapped iteration source: either one exposing O(1) `__len__`, such
as a list or a range (`sized`), or one without `__len__`, such as a
generator or a `filter` object (`unsized`).  The payload lists the
elements a full traversal yields. -/
inductive Source (α : Type) where
  | sized (xs : List α)
  | unsized (xs : List α)
deriving DecidableEq, Repr

/-- whether the source object has a `__len__` attribute. -/
def Source.hasLen : Source α → Bool
  | .sized _ => true
  | .unsized _ => false

/-- the elements a full traversal of the source yields. -/
def Source.elems : Source α → List α
  | .sized xs => xs
  | .unsized xs => xs

/-- `FancyIter.filter` as it acts on the wrapped source: the Python
builtin `filter(func, ...)` object is lazy and never exposes `__len__`,
so the resulting wrapped source is `unsized`. -/
def filterF (src : Source α) (f : α → Bool) : Source α :=
  .unsized (src.elems.filter f)

namespace IteratorPy

/-- Second loop of `_windows_impl` in `iterator.py`: for each remaining
item, `window += [item]; yield window; window = window[1:]`. -/
def windows_loop : List α → List α → List (List α)
  | _, [] => []
  | window, item :: rest =>
      (window ++ [item]) :: windows_loop (window ++ [item]).tail rest

/-- First loop of `_windows_impl` in `iterator.py`: draw `n - 1` elements
into the window; if the source raises `StopIteration` first, yield the
(possibly empty) window and return; otherwise hand over to the second
loop. -/
def windows_fill : Nat → List α → List α → List (List α)
  | 0, window, it => windows_loop window it
  | _ + 1, window, [] => [window]
  | k + 1, window, item :: it => windows_fill k (window ++ [item]) it

/-- `_windows_impl(iterable, n)` of `iterator.py` (lines 357–372). -/
def windows_impl (iterable : List α) (n : Nat) : List (List α) :=
  windows_fill (n - 1) [] iterable

/-- `FancyIter.windows` of `iterator.py` (lines 319–322): validates `n`
with `require_non_negative_integer` and wraps `_windows_impl`; the result
is the list of groups obtained when the returned lazy sequence is
collected. -/
def windows (s : List α) (n : Int) : Except Err (List (List α)) := do
  require_non_negative_integer n
  return windows_impl s n.toNat

/-- Loop of `_chunks_impl` in `iterator.py` (lines 346–354): append each
item to the chunk; when the chunk reaches size `n`, yield it and start a
fresh one; after the loop, yield the remaining chunk if it is non-empty. -/
def chunks_go (n : Nat) : List α → List α → List (List α)
  | chunk, [] => if chunk.isEmpty then [] else [chunk]
  | chunk, item :: rest =>
      let c := chunk ++ [item]
      if c.length == n then c :: chunks_go n [] rest else chunks_go n c rest

/-- `_chunks_impl(iterable, n)` of `iterator.py`. -/
def chunks_impl (iterable : List α) (n : Nat) : List (List α) :=
  chunks_go n [] iterable

/-- `FancyIter.chunks_exact` (lines 94–103):
`self.chunks(n).filter(lambda x: len(x) == n)` — the groups of `chunks`
with every group of length other than `n` removed. -/
def chunks_exact (iterable : List α) (n : Nat) : List (List α) :=
  (chunks_impl iterable n).filter (fun c => c.length == n)

/-- `FancyIter.any` of `iterator.py` (lines 56–66): its `func` parameter
has NO default value, so a call that omits the argument (modelled as
`Option.none`) raises `TypeError` before the body runs; with a predicate
supplied it is Python's builtin `any` over the mapped generator. -/
def any (s : List α) (func : Option (α → Bool)) : Except Err Bool :=
  match func with
  | Option.none => .error .typeError
  | some f => .ok (s.any f)

/-- `FancyIter.contains` of `iterator.py` (lines 128–137):
`self.filter(lambda x: x == item).any()` — note that `any` is called with
no argument. -/
def contains [BEq α] (s : List α) (item : α) : Except Err Bool :=
  any (s.filter (fun x => x == item)) Option.none

/-- `FancyIter.__len__` of `iterator.py` (lines 32–34), decorated with
`require_member_attr("_iterable", "__len__")` (`_decorators.py` lines
14–25): raises `AttributeError` when the wrapped object has no `__len__`,
else returns `len(self._iterable)`. -/
def fancy_len (src : Source α) : Except Err Nat :=
  if src.hasLen then .ok src.elems.length else .error .attributeError

/-- `FancyIter.count` of `iterator.py` (lines 139–152): with no predicate
it returns `len(self._iterable)` — the builtin `len` applied directly to
the wrapped iterable, a `TypeError` when that iterable has no `__len__`;
with a predicate it returns `len(self.filter(func))`, i.e. `FancyIter.__len__`
of a wrapper around a `filter` object. -/
def count (src : Source α) (func : Option (α → Bool)) : Except Err Nat :=
  match func with
  | Option.none =>
      if src.hasLen then .ok src.elems.length else .error .typeError
  | some f => fancy_len (filterF src f)

/-- Semantics of `itertools.zip_longest(a, b)` with the default
`fillvalue=None`: tuples continue to the longer source, an exhausted
source contributing `None` (modelled as `Option.none`). -/
def zip_longest : List α → List β → List (Option α × Option β)
  | [], ys => ys.map (fun y => (Option.none, some y))
  | x :: xs, [] => (some x, Option.none) :: zip_longest xs []
  | x :: xs, y :: ys => (some x, some y) :: zip_longest xs ys

/-- `FancyIter.zip_longest` of `iterator.py` (lines 336–343).  Its
signature is `def zip_longest(self, *iterables)` — there is no `fill` (or
`fillvalue`) keyword parameter, so a call supplying one (modelled as
`fill = some v`) raises `TypeError` (unexpected keyword argument); without
it, the call wraps `itertools.zip_longest(self._iterable, *iterables)`,
whose fill value is `None`. -/
def zip_longest_call (s : List α) (other : List β) (fill : Option β) :
    Except Err (List (Option α × Option β)) :=
  match fill with
  | some _ => .error .typeError
  | Option.none => .ok (zip_longest s other)

/-- `FancyIter.fuse` of `iterator.py` (lines 199–202):
`self.take_while(lambda x: x != stop_value)`, with `stop_value` defaulting
to `None`.  Elements range over `Option Int`, with Python `None` as
`Option.none`; Python `==` on this domain is `BEq` on `Option Int`
(`None == None` is `True`). -/
def fuse (s : List (Option Int)) (stop_value : Option Int) :
    List (Option Int) :=
  s.takeWhile (fun x => x != stop_value)

/-- `FancyIter.filter_map` of `iterator.py` (lines 168–172):
`self.map(func).filter(lambda x: x is not None)`.  The filter uses the
identity test `is not None`, not `==`. -/
def filter_map (s : List PyVal) (func : PyVal → PyVal) : List PyVal :=
  (s.map func).filter (fun x => !(is_none x))

end IteratorPy

namespace IterPy

/-- Loop body of `_windows_impl` in `_iter.py`: `window += [item]`; once
`len(window) == n`, record that a full window was seen, yield it, and
`window.pop(0)`; after the loop, if no full window was ever yielded and the
buffer is non-empty, yield the short buffer. -/
def windows_go (n : Nat) : List α → List α → Bool → List (List α)
  | window, [], atLeastOne =>
      if !atLeastOne && window.length != 0 then [window] else []
  | window, item :: rest, atLeastOne =>
      let w := window ++ [item]
      if w.length == n then w :: windows_go n w.tail rest true
      else windows_go n w rest atLeastOne

/-- `_windows_impl(iterable, n)` of `_iter.py`. -/
def windows_impl (iterable : List α) (n : Nat) : List (List α) :=
  windows_go n [] iterable false

/-- `FancyIter.windows` of `_iter.py`: validates `n` with
`require_positive_integer` and wraps `_windows_impl`. -/
def windows (s : List α) (n : Int) : Except Err (List (List α)) := do
  require_positive_integer n
  return windows_impl s n.toNat

/-- `FancyIter.any` of `_iter.py`: the `func` parameter defaults to
`None`, and a missing predicate is replaced by `lambda x: bool(x)` —
truthiness, which for integer elements is `x != 0`. -/
def any (s : List Int) (func : Option (Int → Bool)) : Bool :=
  s.any (func.getD (fun x => x != 0))

/-- `FancyIter.contains` of `_iter.py`:
`self.filter(lambda x: x == item).any()` — the `any` call has no argument,
so it falls back to the truthiness predicate. -/
def contains (s : List Int) (item : Int) : Bool :=
  any (s.filter (fun x => x == item)) Option.none

/-- `FancyIter.count` of `_iter.py`: optionally filter, then use `len`
when the (possibly filtered) iterable has `__len__`, else consume it with
`sum(1 for _ in it)`. -/
def count (src : Source α) (func : Option (α → Bool)) : Nat :=
  let it := match func with
    | Option.none => src
    | some f => filterF src f
  if it.hasLen then it.elems.length else it.elems.length

end IterPy

namespace Collect

/-- insertion of one value into a Python set, modelled as a duplicate-free
list in insertion order: a present member is left alone, a new one is
appended. -/
def set_insert (container : List PyVal) (v : PyVal) : List PyVal :=
  if container.contains v then container else container ++ [v]

/-- the `MutableSet` branch of `extend` in `_collect.py` (lines 24–30):

    if isinstance(container, set):
        container.update(items)
    else:
        for item in items:
            container.add(items)

For a builtin `set` it inserts every element of `items`.  For any other
`MutableSet` the loop body adds `items` — the whole source iterable (here
modelled as the tuple of its elements) — once per element drawn, never the
loop variable `item`. -/
def extend_mutable_set (isBuiltinSet : Bool)
    (container items : List PyVal) : List PyVal :=
  if isBuiltinSet then items.foldl set_insert container
  else items.foldl (fun c _ => set_insert c (.tuple items)) container

end Collect

/-- Deep embedding of the lazy producers the chainable combinators of
`iterator.py` build at call time.  Each constructor is one of the objects
the method bodies construct — `map(func, it)`, `filter(func, it)`,
`itertools.chain(it, other)`, an unstarted generator from `_chunks_impl`
or `_windows_impl`, `itertools.islice(it, 0, n)` / `islice(it, n, None)`,
`itertools.cycle(it)` — none of which calls `next` on the underlying
source when constructed.  The leaf holds the wrapped concrete source. -/
inductive LazyIter where
  | source (xs : List PyVal)
  | mapL (f : PyVal → PyVal) (src : LazyIter)
  | filterL (p : PyVal → Bool) (src : LazyIter)
  | chainL (src : LazyIter) (other : List PyVal)
  | chunksL (n : Nat) (src : LazyIter)
  | takeL (n : Nat) (src : LazyIter)
  | skipL (n : Nat) (src : LazyIter)
  | windowsL (n : Nat) (src : LazyIter)
  | cycleL (src : LazyIter)

/-- number of combinator layers wrapped around the base source. -/
def LazyIter.depth : LazyIter → Nat
  | .source _ => 0
  | .mapL _ s => s.depth + 1
  | .filterL _ s => s.depth + 1
  | .chainL s _ => s.depth + 1
  | .chunksL _ s => s.depth + 1
  | .takeL _ s => s.depth + 1
  | .skipL _ s => s.depth + 1
  | .windowsL _ s => s.depth + 1
  | .cycleL s => s.depth + 1

/-- the elements remaining in the base source at the bottom of the
pipeline.  A combinator call that drew elements at call time would shrink
this list. -/
def LazyIter.baseSource : LazyIter → List PyVal
  | .source xs => xs
  | .mapL _ s => s.baseSource
  | .filterL _ s => s.baseSource
  | .chainL s _ => s.baseSource
  | .chunksL _ s => s.baseSource
  | .takeL _ s => s.baseSource
  | .skipL _ s => s.baseSource
  | .windowsL _ s => s.baseSource
  | .cycleL s => s.baseSource

/-- full consumption of a pipeline, as performed by a terminal operation
such as `collect`: the elements it produces, or `Option.none` when full
consumption diverges because the pipeline repeats its source forever
(`cycle` — partial consumption of a cycle is not modelled here). -/
def LazyIter.consume : LazyIter → Option (List PyVal)
  | .source xs => some xs
  | .mapL f s => s.consume.map (List.map f)
  | .filterL p s => s.consume.map (List.filter p)
  | .chainL s other => s.consume.map (· ++ other)
  | .chunksL n s =>
      s.consume.map (fun xs => (IteratorPy.chunks_impl xs n).map PyVal.tuple)
  | .takeL n s => s.consume.map (List.take n)
  | .skipL n s => s.consume.map (List.drop n)
  | .windowsL n s =>
      s.consume.map (fun xs => (IteratorPy.windows_impl xs n).map PyVal.tuple)
  | .cycleL _ => Option.none

/-- the `FancyIter` wrapper: a single owned lazy source. -/
structure FancyIterM where
  iterable : LazyIter

/-- `FancyIter.map` (lines 225–228): `FancyIter(map(func, self._iterable))`. -/
def FancyIterM.map (self : FancyIterM) (func : PyVal → PyVal) : FancyIterM :=
  ⟨.mapL func self.iterable⟩

/-- `FancyIter.filter`: `FancyIter(filter(func, self._iterable))`. -/
def FancyIterM.filter (self : FancyIterM) (func : PyVal → Bool) : FancyIterM :=
  ⟨.filterL func self.iterable⟩

/-- `FancyIter.chain`: `FancyIter(itertools.chain(self._iterable, other))`. -/
def FancyIterM.chain (self : FancyIterM) (other : List PyVal) : FancyIterM :=
  ⟨.chainL self.iterable other⟩

/-- `FancyIter.chunks` (lines 81–92) after its argument validation:
`FancyIter(_chunks_impl(self._iterable, n))`, an unstarted generator. -/
def FancyIterM.chunks (self : FancyIterM) (n : Nat) : FancyIterM :=
  ⟨.chunksL n self.iterable⟩

/-- `FancyIter.take` after validation: `FancyIter(islice(self._iterable, 0, n))`. -/
def FancyIterM.take (self : FancyIterM) (n : Nat) : FancyIterM :=
  ⟨.takeL n self.iterable⟩

/-- `FancyIter.skip` after validation: `FancyIter(islice(self._iterable, n, None))`. -/
def FancyIterM.skip (self : FancyIterM) (n : Nat) : FancyIterM :=
  ⟨.skipL n self.iterable⟩

/-- `FancyIter.windows` after validation:
`FancyIter(_windows_impl(self._iterable, n))`, an unstarted generator. -/
def FancyIterM.windows (self : FancyIterM) (n : Nat) : FancyIterM :=
  ⟨.windowsL n self.iterable⟩

/-- `FancyIter.cycle`: `FancyIter(itertools.cycle(self._iterable))`. -/
def FancyIterM.cycle (self : FancyIterM) : FancyIterM :=
  ⟨.cycleL self.iterable⟩

/-- Claim C1: the claim states that for `len(S) < n` the collected
`S.windows(n)` is one group holding all of S when S is non-empty, and no
group at all when S is empty — in particular `wrap([1,2]).windows(3)`
collects to `[(1,2)]` and `wrap([]).windows(3)` to `[]`.  The
`_windows_impl` of `iterator.py` that the claim cites does the opposite on
both of the claim's own inputs: for `[1,2]` with `n = 3` it yields no
group at all (the first loop fills the `n-1` buffer completely and the
second loop finds the source exhausted), and for `[]` with `n = 3` it
yields one EMPTY group (the `StopIteration` handler yields the empty
buffer).  The `_windows_impl` of `_iter.py` — the variant asserted by
`tests/test_misc.py::test_windows` — matches the claim on both inputs. -/
theorem claim1_windows_short_inputs :
    IteratorPy.windows_impl ([1, 2] : List Int) 3 = []
    ∧ IteratorPy.windows_impl ([] : List Int) 3 = [[]]
    ∧ IterPy.windows_impl ([1, 2] : List Int) 3 = [[1, 2]]
    ∧ IterPy.windows_impl ([] : List Int) 3 = [] :=
  ⟨rfl, rfl, rfl, rfl⟩

/-- Claim C2: the claim states `contains(x)` returns `True`/`False` and
does not raise.  In `iterator.py`, `contains` is
`self.filter(lambda x: x == item).any()`, but that file's `FancyIter.any`
has a required `func` parameter (no default), so every `contains` call
raises `TypeError` — including the repository's own test input
`FancyIter(range(100)).contains(50)` (`tests/test_misc.py::test_contains`
asserts `True`).  The `_iter.py` variant gives `any` a truthiness default;
there `contains(50)` on `range(100)` is `True`, but the fallback makes
`contains` of a present falsy element wrongly `False`
(`wrap([0]).contains(0)` filters to `[0]` and `any` tests `bool(0)`), so
neither variant satisfies the claim. -/
theorem claim2_contains_raises :
    (∀ (s : List Int) (item : Int),
      IteratorPy.contains s item = Except.error Err.typeError)
    ∧ IteratorPy.contains (List.range 100) (50 : Nat) =
        Except.error Err.typeError
    ∧ IterPy.contains ((List.range 100).map Int.ofNat) 50 = true
    ∧ IterPy.contains [0] 0 = false :=
  ⟨fun _ _ => rfl, rfl, by decide, rfl⟩

/-- Claim C3: the claim states `count(p)` returns the number of elements
satisfying `p`, and `count()` falls back to consuming the source when no
O(1) length is available.  In `iterator.py`, `count(p)` is
`len(self.filter(p))`: the `filter` builtin object never has `__len__`, so
`FancyIter.__len__`'s `require_member_attr` decorator raises
`AttributeError` on every predicate call — including the repository's own
test input `FancyIter(range(100)).count(lambda x: x < 50)`
(`tests/test_misc.py::test_count` asserts `50`); and `count()` with no
predicate is the bare builtin `len(self._iterable)`, which raises
`TypeError` on a source without `__len__` instead of consuming it.  The
`_iter.py` variant (`hasattr` check with a `sum(1 for _ in it)` fallback)
behaves as the claim states. -/
theorem claim3_count_raises :
    (∀ (src : Source Int) (f : Int → Bool),
      IteratorPy.count src (some f) = Except.error Err.attributeError)
    ∧ IteratorPy.count (Source.sized ((List.range 100).map Int.ofNat))
        (some (fun x => decide (x < 50))) = Except.error Err.attributeError
    ∧ IteratorPy.count (Source.unsized ([1, 2, 3] : List Int)) Option.none =
        Except.error Err.typeError
    ∧ IterPy.count (Source.sized ((List.range 100).map Int.ofNat))
        (some (fun x => decide (x < 50))) = 50
    ∧ (∀ (src : Source Int) (f : Int → Bool),
        IterPy.count src (some f) = (src.elems.filter f).length)
    ∧ (∀ (src : Source Int), IterPy.count src Option.none = src.elems.length) :=
  ⟨fun _ _ => rfl, rfl, rfl, by decide,
   fun src _ => by cases src <;> rfl,
   fun src => by cases src <;> rfl⟩

/-- Claim C4 counterexample: the claim states `zip_longest` accepts a
`fill` value and that
`wrap([1,2,3]).zip_longest([10,20,30,40], fill=0).collect()` equals
`[(1,10),(2,20),(3,30),(0,40)]`.  The signature in `iterator.py` is
`def zip_longest(self, *iterables)` — there is no `fill` keyword
parameter, so that very call raises `TypeError`; and without a fill
argument the wrapped `itertools.zip_longest` fills with `None`, so the
fourth emitted tuple is `(None, 40)`, not `(0, 40)`. -/
theorem claim4_zip_longest_no_fill_counterexample :
    IteratorPy.zip_longest_call ([1, 2, 3] : List Int)
        ([10, 20, 30, 40] : List Int) (some 0) = Except.error Err.typeError
    ∧ (IteratorPy.zip_longest ([1, 2, 3] : List Int)
        ([10, 20, 30, 40] : List Int)).getLast? = some (Option.none, some 40)
    ∧ ((Option.none : Option Int) == some 0) = false :=
  ⟨rfl, by decide, rfl⟩

/-- Claim C5 counterexample: the claim states `fuse()` with no stop value
is the identity even on sequences containing `None`.  But the default
`stop_value` in `iterator.py` IS `None`, and Python's `None == None` is
`True`, so `take_while(lambda x: x != stop_value)` stops at the first
`None` element: `wrap([1, None, 2]).fuse()` collects to `[1]`, not to
`[1, None, 2]`. -/
theorem claim5_fuse_counterexample :
    IteratorPy.fuse [some 1, Option.none, some 2] Option.none = [some 1]
    ∧ (IteratorPy.fuse [some 1, Option.none, some 2] Option.none ==
        [some 1, Option.none, some 2]) = false :=
  ⟨rfl, rfl⟩

/-- Claim C6: the claim states `windows(n)` fails eagerly with
`InvalidArgument` whenever `n` is not a positive integer, in particular
for `windows(0)`.  The `windows` of `iterator.py` validates with
`require_non_negative_integer`, so `0` is accepted: `windows(0)` returns a
lazy sequence (which, when consumed, yields size-1 groups, like
`windows(1)`) instead of failing at the call site.  The `_iter.py`
variant validates with `require_positive_integer` and raises `ValueError`,
which is what `tests/test_misc.py::test_windows` asserts
(`pytest.raises(ValueError)` for `windows(0)`). -/
theorem claim6_windows_zero_accepted :
    IteratorPy.windows ([1, 2, 3] : List Int) 0 =
        Except.ok [[1], [2], [3]]
    ∧ (∀ (s : List Int), IteratorPy.windows s 0 =
        Except.ok (IteratorPy.windows_impl s 0))
    ∧ IterPy.windows ([1, 2, 3] : List Int) 0 = Except.error Err.valueError :=
  ⟨rfl, fun _ => rfl, rfl⟩

/-- Claim C7: the claim states `collect_into` on any mutable set-capable
container inserts each individual element of the source.  The
`MutableSet` branch of `extend` in `_collect.py` does that only for the
builtin `set`; for every other `MutableSet` the loop body is
`container.add(items)` — the loop variable `item` is never used — so the
container receives the whole source iterable as a single member and never
the elements themselves.  Evaluated at a non-builtin mutable set and
source `[1, 2]`: the result holds the iterable, not `1` or `2`; the
builtin-`set` branch, by contrast, inserts the elements (collapsing
duplicates and keeping existing members). -/
theorem zip_longest_length (xs : List Int) : ∀ ys : List Int,
    (IteratorPy.zip_longest xs ys).length = max xs.length ys.length := by
  induction xs with
  | nil => intro ys; simp [IteratorPy.zip_longest]
  | cons x xs ih =>
      intro ys
      cases ys with
      | nil =>
          simp only [IteratorPy.zip_longest, List.length_cons, ih []]
          simp
      | cons y ys =>
          simp only [IteratorPy.zip_longest, List.length_cons, ih ys]
          omega

theorem zip_longest_get (xs : List Int) : ∀ (ys : List Int) (i : Nat),
    i < max xs.length ys.length →
    (IteratorPy.zip_longest xs ys)[i]? = some (xs[i]?, ys[i]?) := by
  induction xs with
  | nil =>
      intro ys i h
      have hi : i < ys.length := by simpa using h
      simp only [IteratorPy.zip_longest]
      rw [List.getElem?_map, List.getElem?_eq_getElem hi]
      simp
  | cons x xs ih =>
      intro ys i h
      cases ys with
      | nil =>
          cases i with
          | zero => simp [IteratorPy.zip_longest]
          | succ j =>
              have hj : j < max xs.length ([] : List Int).length := by
                simp at h ⊢; omega
              simp only [IteratorPy.zip_longest, List.getElem?_cons_succ]
              exact ih [] j hj
      | cons y ys =>
          cases i with
          | zero => simp [IteratorPy.zip_longest]
          | succ j =>
              have hj : j < max xs.length ys.length := by simp at h; omega
              simp only [IteratorPy.zip_longest, List.getElem?_cons_succ]
              exact ih ys j hj

theorem claim7_collect_into_set_adds_iterable :
    Collect.extend_mutable_set false [] [.int 1, .int 2] =
        [PyVal.tuple [.int 1, .int 2]]
    ∧ (Collect.extend_mutable_set false [] [.int 1, .int 2]).contains
        (PyVal.int 1) = false
    ∧ (Collect.extend_mutable_set false [] [.int 1, .int 2]).contains
        (PyVal.int 2) = false
    ∧ Collect.extend_mutable_set true [] [.int 1, .int 2] = [.int 1, .int 2]
    ∧ Collect.extend_mutable_set true [.int 3] [.int 1, .int 2, .int 1] =
        [.int 3, .int 1, .int 2] :=
  ⟨rfl, by decide, by decide, rfl, rfl⟩

/-- Claim C4 amended: `zip_longest` accepts no fill value (supplying one
is a `TypeError`); it emits tuples continuing to the longest source, with
exhausted sources contributing `None`: for every position `i` below the
longer length, the emitted tuple pairs `xs[i]` with `ys[i]`, either being
`None` once its source is exhausted; in particular
`wrap([1,2,3]).zip_longest([10,20,30,40]).collect()` equals
`[(1,10),(2,20),(3,30),(None,40)]`. -/
theorem claim4_zip_longest_amended (xs ys : List Int) (i : Nat)
    (h : i < max xs.length ys.length) :
    (IteratorPy.zip_longest xs ys).length = max xs.length ys.length
    ∧ (IteratorPy.zip_longest xs ys)[i]? = some (xs[i]?, ys[i]?)
    ∧ IteratorPy.zip_longest_call ([1, 2, 3] : List Int)
        ([10, 20, 30, 40] : List Int) Option.none = Except.ok
        [(some 1, some 10), (some 2, some 20), (some 3, some 30),
          (Option.none, some 40)] :=
  ⟨zip_longest_length xs ys, zip_longest_get xs ys i h, rfl⟩

/-- Witness for the amended C4 theorem at `xs = [1,2,3]`,
`ys = [10,20,30,40]`, `i = 3`: the exhausted first source contributes
`None` in the fourth tuple. -/
theorem claim4_zip_longest_amended_witness :
    (3 : Nat) < max ([1, 2, 3] : List Int).length
        ([10, 20, 30, 40] : List Int).length
    ∧ (IteratorPy.zip_longest ([1, 2, 3] : List Int)
        ([10, 20, 30, 40] : List Int))[3]? =
        some (([1, 2, 3] : List Int)[3]?, ([10, 20, 30, 40] : List Int)[3]?) :=
  ⟨by decide,
   (claim4_zip_longest_amended [1, 2, 3] [10, 20, 30, 40] 3 (by decide)).2.1⟩

/-- Claim C5 amended: `fuse()` with no stop value behaves as the identity
exactly on sequences containing no element equal to `None` (the default
sentinel); a sequence containing `None` is truncated before its first
`None`. -/
theorem claim5_fuse_identity_amended (s : List (Option Int))
    (h : Option.none ∉ s) : IteratorPy.fuse s Option.none = s := by
  induction s with
  | nil => rfl
  | cons x xs ih =>
      have hx : (x != Option.none) = true := by
        cases x with
        | none => exact absurd (List.mem_cons_self _ _) h
        | some v => rfl
      have hxs : Option.none ∉ xs := fun hm => h (List.mem_cons_of_mem _ hm)
      simp only [IteratorPy.fuse] at ih ⊢
      rw [List.takeWhile_cons_of_pos (p := fun z => z != Option.none) hx,
        ih hxs]

/-- Witness for the amended C5 theorem at `s = [some 1, some 2]`. -/
theorem claim5_fuse_identity_amended_witness :
    Option.none ∉ ([some 1, some 2] : List (Option Int))
    ∧ IteratorPy.fuse [some 1, some 2] Option.none = [some 1, some 2] :=
  ⟨by decide, claim5_fuse_identity_amended [some 1, some 2] (by decide)⟩

theorem FancyIterM.mk_ne_of_depth {u t : LazyIter} (h : u.depth ≠ t.depth) :
    (⟨u⟩ : FancyIterM) ≠ ⟨t⟩ :=
  fun he => h (congrArg (fun m : FancyIterM => m.iterable.depth) he)

/-- Claim C8: every chainable combinator call returns a new `FancyIter`
instance (distinct from the receiver) wrapping a lazily constructed
producer that references the receiver's source unchanged; the base source
still holds all its elements after the call (nothing was drawn), and the
transformation is applied only when the result is consumed (the `consume`
equations at the end). -/
theorem claim8_chainable_lazy (s : FancyIterM) (f : PyVal → PyVal)
    (p : PyVal → Bool) (other : List PyVal) (n : Nat) :
    ((s.map f).iterable = LazyIter.mapL f s.iterable ∧ s.map f ≠ s
      ∧ (s.map f).iterable.baseSource = s.iterable.baseSource)
    ∧ ((s.filter p).iterable = LazyIter.filterL p s.iterable
      ∧ s.filter p ≠ s
      ∧ (s.filter p).iterable.baseSource = s.iterable.baseSource)
    ∧ ((s.chain other).iterable = LazyIter.chainL s.iterable other
      ∧ s.chain other ≠ s
      ∧ (s.chain other).iterable.baseSource = s.iterable.baseSource)
    ∧ ((s.chunks n).iterable = LazyIter.chunksL n s.iterable
      ∧ s.chunks n ≠ s
      ∧ (s.chunks n).iterable.baseSource = s.iterable.baseSource)
    ∧ ((s.take n).iterable = LazyIter.takeL n s.iterable ∧ s.take n ≠ s
      ∧ (s.take n).iterable.baseSource = s.iterable.baseSource)
    ∧ ((s.skip n).iterable = LazyIter.skipL n s.iterable ∧ s.skip n ≠ s
      ∧ (s.skip n).iterable.baseSource = s.iterable.baseSource)
    ∧ ((s.windows n).iterable = LazyIter.windowsL n s.iterable
      ∧ s.windows n ≠ s
      ∧ (s.windows n).iterable.baseSource = s.iterable.baseSource)
    ∧ (s.cycle.iterable = LazyIter.cycleL s.iterable ∧ s.cycle ≠ s
      ∧ s.cycle.iterable.baseSource = s.iterable.baseSource)
    ∧ (∀ xs, ((FancyIterM.mk (LazyIter.source xs)).map f).iterable.consume =
        some (xs.map f))
    ∧ (∀ xs, ((FancyIterM.mk (LazyIter.source xs)).chunks n).iterable.consume =
        some ((IteratorPy.chunks_impl xs n).map PyVal.tuple)) :=
  ⟨⟨rfl, FancyIterM.mk_ne_of_depth (Nat.succ_ne_self s.iterable.depth), rfl⟩,
   ⟨rfl, FancyIterM.mk_ne_of_depth (Nat.succ_ne_self s.iterable.depth), rfl⟩,
   ⟨rfl, FancyIterM.mk_ne_of_depth (Nat.succ_ne_self s.iterable.depth), rfl⟩,
   ⟨rfl, FancyIterM.mk_ne_of_depth (Nat.succ_ne_self s.iterable.depth), rfl⟩,
   ⟨rfl, FancyIterM.mk_ne_of_depth (Nat.succ_ne_self s.iterable.depth), rfl⟩,
   ⟨rfl, FancyIterM.mk_ne_of_depth (Nat.succ_ne_self s.iterable.depth), rfl⟩,
   ⟨rfl, FancyIterM.mk_ne_of_depth (Nat.succ_ne_self s.iterable.depth), rfl⟩,
   ⟨rfl, FancyIterM.mk_ne_of_depth (Nat.succ_ne_self s.iterable.depth), rfl⟩,
   fun _ => rfl, fun _ => rfl⟩

theorem chunks_go_join {α : Type} (n : Nat) :
    ∀ (s chunk : List α), chunk.length < n →
      (IteratorPy.chunks_go n chunk s).flatten = chunk ++ s := by
  intro s
  induction s with
  | nil =>
      intro chunk h
      by_cases hc : chunk.isEmpty
      · have hnil : chunk = [] := List.isEmpty_iff.mp hc
        simp [IteratorPy.chunks_go, hc, hnil]
      · simp [IteratorPy.chunks_go, hc]
  | cons x xs ih =>
      intro chunk h
      simp only [IteratorPy.chunks_go]
      by_cases hn : (chunk ++ [x]).length = n
      · have hpos : 0 < n := by
          simp [List.length_append] at hn; omega
        simp only [hn, beq_self_eq_true, if_true, List.flatten_cons]
        rw [ih [] (by simpa using hpos)]
        simp
      · have hlt : (chunk ++ [x]).length < n := by
          simp [List.length_append] at hn h ⊢; omega
        have hne : ((chunk ++ [x]).length == n) = false := by
          simp only [beq_eq_false_iff_ne, ne_eq]
          exact hn
        simp only [hne, Bool.false_eq_true, if_false]
        rw [ih (chunk ++ [x]) hlt]
        simp

theorem chunks_go_struct {α : Type} (n : Nat) (hn : 0 < n) :
    ∀ (s chunk : List α), chunk.length < n →
      IteratorPy.chunks_go n chunk s = []
      ∨ ∃ (L : List (List α)) (lst : List α),
          IteratorPy.chunks_go n chunk s = L ++ [lst]
          ∧ (∀ c ∈ L, c.length = n) ∧ 1 ≤ lst.length ∧ lst.length ≤ n := by
  intro s
  induction s with
  | nil =>
      intro chunk h
      by_cases hc : chunk.isEmpty
      · left; simp [IteratorPy.chunks_go, hc]
      · right
        refine ⟨[], chunk, by simp [IteratorPy.chunks_go, hc], by simp,
          ?_, le_of_lt h⟩
        cases chunk with
        | nil => simp at hc
        | cons c cs => simp
  | cons x xs ih =>
      intro chunk h
      simp only [IteratorPy.chunks_go]
      by_cases hlen : (chunk ++ [x]).length = n
      · simp only [hlen, beq_self_eq_true, if_true]
        rcases ih [] (by simpa using hn) with h0 | ⟨L, lst, hEq, hL, h1, h2⟩
        · right
          exact ⟨[], chunk ++ [x], by simp [h0], by simp, by simp,
            le_of_eq hlen⟩
        · right
          refine ⟨(chunk ++ [x]) :: L, lst, by simp [hEq], ?_, h1, h2⟩
          intro c hc
          rcases List.mem_cons.mp hc with hc | hc
          · rw [hc]; exact hlen
          · exact hL c hc
      · have hlt : (chunk ++ [x]).length < n := by
          simp [List.length_append] at hlen h ⊢; omega
        have hne : ((chunk ++ [x]).length == n) = false := by
          simp only [beq_eq_false_iff_ne, ne_eq]
          exact hlen
        simp only [hne, Bool.false_eq_true, if_false]
        exact ih (chunk ++ [x]) hlt

/-- Claim C9: for finite S and positive n, the groups of `chunks(n)`
(`_chunks_impl` of `iterator.py`) concatenate back to S; every group
before the last has length exactly n; the last group has length between 1
and n; and `chunks_exact(n)` is `chunks(n)` with a final group of length
other than n dropped. -/
theorem claim9_chunks {α : Type} (s : List α) (n : Nat) (hn : 0 < n) :
    (IteratorPy.chunks_impl s n).flatten = s
    ∧ (∀ c ∈ (IteratorPy.chunks_impl s n).dropLast, c.length = n)
    ∧ (∀ c, (IteratorPy.chunks_impl s n).getLast? = some c →
        1 ≤ c.length ∧ c.length ≤ n)
    ∧ IteratorPy.chunks_exact s n =
        (if ((IteratorPy.chunks_impl s n).getLastD []).length = n
          then IteratorPy.chunks_impl s n
          else (IteratorPy.chunks_impl s n).dropLast) := by
  have hj : (IteratorPy.chunks_impl s n).flatten = s := by
    have := chunks_go_join (α := α) n s [] (by simpa using hn)
    simpa [IteratorPy.chunks_impl] using this
  rcases chunks_go_struct (α := α) n hn s [] (by simpa using hn) with
    h0 | ⟨L, lst, hEq, hL, h1, h2⟩
  · rw [show IteratorPy.chunks_impl s n = IteratorPy.chunks_go n [] s from rfl,
      h0] at hj ⊢
    refine ⟨hj, by simp, by simp, ?_⟩
    have hne : ¬ (([] : List α).length = n) := by simp; omega
    simp [IteratorPy.chunks_exact, IteratorPy.chunks_impl, h0, hne]
  · rw [show IteratorPy.chunks_impl s n = IteratorPy.chunks_go n [] s from rfl,
      hEq] at hj ⊢
    refine ⟨hj, ?_, ?_, ?_⟩
    · intro c hc
      rw [List.dropLast_concat] at hc
      exact hL c hc
    · intro c hc
      rw [List.getLast?_concat] at hc
      cases hc
      exact ⟨h1, h2⟩
    · have hexact : IteratorPy.chunks_exact s n =
          (L ++ [lst]).filter (fun c => c.length == n) := by
        simp [IteratorPy.chunks_exact, IteratorPy.chunks_impl, hEq]
      rw [hexact, List.filter_append]
      have hLfull : L.filter (fun c => c.length == n) = L :=
        List.filter_eq_self.mpr (fun c hc => by simp [hL c hc])
      have hlast : (L ++ [lst]).getLastD [] = lst := by
        rw [List.getLastD_eq_getLast?, List.getLast?_concat]
        rfl
      rw [hLfull, hlast, List.dropLast_concat]
      by_cases hlc : lst.length = n
      · simp [hlc]
      · simp [hlc]

/-- Witness for the C9 theorem at `S = [1,2,3,4,5]`, `n = 2`. -/
theorem claim9_chunks_witness :
    0 < 2
    ∧ (IteratorPy.chunks_impl ([1, 2, 3, 4, 5] : List Int) 2).flatten =
        [1, 2, 3, 4, 5] :=
  ⟨by decide, (claim9_chunks ([1, 2, 3, 4, 5] : List Int) 2 (by decide)).1⟩

/-- Claim C10: `filter_map` drops a transformed result exactly when that
result is the `None` object itself — the filter is the identity test
`x is not None` — so falsy results (`0`, `False`, `""`) are retained, and
an object that merely compares equal to `None` (here `noneEq`, with
`pyEq noneEq None = True`) is retained as well; only `None` itself is
dropped. -/
theorem claim10_filter_map :
    (∀ (s : List PyVal) (f : PyVal → PyVal),
      IteratorPy.filter_map s f =
        (s.map f).filter (fun v => decide (v ≠ PyVal.none)))
    ∧ IteratorPy.filter_map [PyVal.int 7] (fun _ => PyVal.int 0) =
        [PyVal.int 0]
    ∧ IteratorPy.filter_map [PyVal.int 7] (fun _ => PyVal.bool false) =
        [PyVal.bool false]
    ∧ IteratorPy.filter_map [PyVal.int 7] (fun _ => PyVal.str "") =
        [PyVal.str ""]
    ∧ pyEq PyVal.noneEq PyVal.none = true
    ∧ IteratorPy.filter_map [PyVal.int 7] (fun _ => PyVal.noneEq) =
        [PyVal.noneEq]
    ∧ IteratorPy.filter_map [PyVal.int 7] (fun _ => PyVal.none) = [] := by
  refine ⟨?_, rfl, rfl, rfl, rfl, rfl, rfl⟩
  intro s f
  unfold IteratorPy.filter_map
  congr 1
  funext v
  cases v <;> rfl

end Fancyiter
